import Mathlib

/-!
Verification of the harelog structured logging library.

This file gives a shallow embedding of the entry-construction and dispatch
pipeline of the harelog Go package (logger.go, formatter.go,
formatter_masking.go, util.go / part_009) and proves the specified
properties about it.

Modelling conventions:
* Go `map[string]T` is modelled as an association list `SMap T` with
  assignment-overwrite semantics (`setKey`) and first-match lookup
  (`lookupKey`); maps built by the library have pairwise distinct keys.
* Go `interface{}` payload values are modelled by the closed universe
  `GoValue`, covering the dynamic cases the library distinguishes
  (`string`, `bool`, the integer kinds collapsed to `vInt`, values
  implementing `error`, `*HTTPRequest`, `*SourceLocation`,
  `fmt.Stringer`, and a default case carrying its `fmt.Sprint`
  rendering).  Floating point values are not modelled.
* `time.Now()` is threaded in as an explicit parameter; a timestamp is
  represented by its RFC3339 rendering, which is all the formatters use.
* Panics are modelled with `Except String`; a `.error` result is a Go
  panic, an `.ok` result a normal return.
-/

namespace Harelog

/-- Association-list model of a Go `map[string]α`. -/
abbrev SMap (α : Type) := List (String × α)

/-- First-match lookup, the read operation of a Go map. -/
def lookupKey {α : Type} (k : String) : SMap α → Option α
  | [] => none
  | (k', v) :: rest => if k' = k then some v else lookupKey k rest

/-- Assignment `m[k] = v` of a Go map: overwrite the binding if present,
append it otherwise. -/
def setKey {α : Type} (m : SMap α) (k : String) (v : α) : SMap α :=
  match m with
  | [] => [(k, v)]
  | (k', v') :: rest => if k' = k then (k, v) :: rest else (k', v') :: setKey rest k v

/-- The keys of a map. -/
def keysOf {α : Type} (m : SMap α) : List String := m.map Prod.fst

theorem lookupKey_setKey_self {α : Type} (m : SMap α) (k : String) (v : α) :
    lookupKey k (setKey m k v) = some v := by
  induction m with
  | nil => simp [setKey, lookupKey]
  | cons p rest ih =>
    obtain ⟨k', v'⟩ := p
    by_cases h : k' = k <;> simp [setKey, lookupKey, h, ih]

theorem lookupKey_setKey_other {α : Type} (m : SMap α) (k k0 : String) (v : α)
    (h : k0 ≠ k) : lookupKey k0 (setKey m k v) = lookupKey k0 m := by
  induction m with
  | nil =>
    have : ¬k = k0 := fun h' => h h'.symm
    simp [setKey, lookupKey, this]
  | cons p rest ih =>
    obtain ⟨k', v'⟩ := p
    by_cases hk : k' = k
    · subst hk
      have : ¬k' = k0 := fun h' => h h'.symm
      simp [setKey, lookupKey, this]
    · simp [setKey, lookupKey, hk, ih]

theorem keysOf_setKey {α : Type} (m : SMap α) (k : String) (v : α) :
    keysOf (setKey m k v) = if k ∈ keysOf m then keysOf m else keysOf m ++ [k] := by
  induction m with
  | nil => simp [setKey, keysOf]
  | cons p rest ih =>
    obtain ⟨k', v'⟩ := p
    by_cases h : k' = k
    · subst h
      simp [setKey, keysOf]
    · have hne : ¬k = k' := fun h' => h h'.symm
      simp only [setKey, if_neg h, keysOf, List.map_cons, List.mem_cons]
      rw [keysOf] at ih
      by_cases hmem : k ∈ rest.map Prod.fst
      · simp [hmem, ih, hne, keysOf]
      · simp [hmem, ih, hne, keysOf]

theorem setKey_keys_nodup {α : Type} (m : SMap α) (k : String) (v : α)
    (h : (keysOf m).Nodup) : (keysOf (setKey m k v)).Nodup := by
  rw [keysOf_setKey]
  by_cases hmem : k ∈ keysOf m
  · simpa [hmem]
  · simpa [hmem, List.nodup_append] using h

/-- HTTPRequest bundles information about an HTTP request (logger.go). -/
structure HTTPRequest where
  requestMethod : String
  requestURL : String
  status : Int
  userAgent : String
  remoteIP : String
  latency : String
deriving DecidableEq, Repr

/-- SourceLocation is the place in the source where an entry was produced
(logger.go). -/
structure SourceLocation where
  file : String
  line : Int
  function : String
deriving DecidableEq, Repr

/-- The closed value universe for Go `interface{}` payload values. -/
inductive GoValue where
  | vString (s : String)
  | vBool (b : Bool)
  | vInt (n : Int)
  | vError (msg : String)
  | vHTTPRequest (r : HTTPRequest)
  | vSourceLocation (s : SourceLocation)
  | vStringer (s : String)
  | vOther (rendering : String)
deriving DecidableEq, Repr

/-- The seven log levels (logger.go, `LogLevel` constants). -/
inductive LogLevel where
  | off
  | critical
  | error
  | warn
  | info
  | debug
  | all
deriving DecidableEq, Repr

/-- The string spelling of each level (the `LogLevel` string constants). -/
def LogLevel.name : LogLevel → String
  | .off => "OFF"
  | .critical => "CRITICAL"
  | .error => "ERROR"
  | .warn => "WARN"
  | .info => "INFO"
  | .debug => "DEBUG"
  | .all => "ALL"

/-- The numeric value of each level: the `logLevelValue` constants
(`iota` order Off, Critical, Error, Warn, Info, Debug; All is
`math.MaxInt32`), i.e. the contents of `levelMap`. -/
def logLevelValue : LogLevel → Nat
  | .off => 0
  | .critical => 1
  | .error => 2
  | .warn => 3
  | .info => 4
  | .debug => 5
  | .all => 2147483647

/-- isDebugEnabled (logger.go line 2867). -/
def isDebugEnabled (level : Nat) : Bool := level ≥ logLevelValue .debug

/-- isInfoEnabled (logger.go line 2872). -/
def isInfoEnabled (level : Nat) : Bool := level ≥ logLevelValue .info

/-- isWarnEnabled (logger.go line 2877). -/
def isWarnEnabled (level : Nat) : Bool := level ≥ logLevelValue .warn

/-- isErrorEnabled (logger.go line 2882). -/
def isErrorEnabled (level : Nat) : Bool := level ≥ logLevelValue .error

/-- isCriticalEnabled (logger.go line 2887). -/
def isCriticalEnabled (level : Nat) : Bool := level ≥ logLevelValue .critical

/-- Dispatch to the per-level observability predicate of the source for
the five loggable severities; `OFF` and the sentinel `ALL` have no such
predicate and are never observable severities of an entry. -/
def isEnabledFor (x : LogLevel) (threshold : Nat) : Bool :=
  match x with
  | .debug => isDebugEnabled threshold
  | .info => isInfoEnabled threshold
  | .warn => isWarnEnabled threshold
  | .error => isErrorEnabled threshold
  | .critical => isCriticalEnabled threshold
  | _ => false

/-!  Quoting (src/unnamed/part_009 and formatter.go appendStringValue).  -/

/-- The characters that force quoting in simple key=value formats:
space, `=`, and the double quote (part_009, `charsRequiringQuoting`). -/
def charsRequiringQuoting : List Char := [' ', '=', '"']

/-- needsQuoting (part_009 lines 42-48): a value needs quoting when it is
empty or contains one of `charsRequiringQuoting`. -/
def needsQuoting (value : String) : Bool :=
  if value = "" then true
  else value.data.any (fun c => c ∈ charsRequiringQuoting)

/-- The escape expansion of one character inside a `strconv.Quote`d
string.  The model covers the double quote, the backslash and the common
control characters; rarer escapes (`\a`, `\b`, `\f`, `\v`, `\xNN`) are
outside the modelled character set. -/
def quoteChar (c : Char) : List Char :=
  if c = '"' then ['\\', '"']
  else if c = '\\' then ['\\', '\\']
  else if c = '\n' then ['\\', 'n']
  else if c = '\t' then ['\\', 't']
  else if c = '\r' then ['\\', 'r']
  else [c]

/-- Model of Go `strconv.Quote`: wrap in double quotes, escaping each
character with `quoteChar`. -/
def quoteGo (s : String) : String :=
  ⟨'"' :: (s.data.flatMap quoteChar) ++ ['"']⟩

/-- The inverse of `quoteChar` on escape letters. -/
def unescapeChar (c : Char) : Option Char :=
  if c = '"' then some '"'
  else if c = '\\' then some '\\'
  else if c = 'n' then some '\n'
  else if c = 't' then some '\t'
  else if c = 'r' then some '\r'
  else none

/-- Parse the remainder of a quoted token after the opening quote,
undoing `quoteChar`; fails on a malformed escape, a missing closing
quote, or trailing characters. -/
def unquoteAux : List Char → Option (List Char)
  | [] => none
  | c :: rest =>
    if c = '"' then (if rest.isEmpty then some [] else none)
    else if c = '\\' then
      match rest with
      | [] => none
      | e :: rest' =>
        match unescapeChar e with
        | some d => (unquoteAux rest').map (fun l => d :: l)
        | none => none
    else (unquoteAux rest).map (fun l => c :: l)

/-- The defined unescaping of a quoted token: strip the surrounding
quotes and undo the escapes. -/
def unquoteGo (s : String) : Option String :=
  match s.data with
  | '"' :: rest => (unquoteAux rest).map (fun l => ⟨l⟩)
  | _ => none

/-- appendStringValue (formatter.go lines 809-815): quote with
`strconv.Quote` when `needsQuoting` holds, otherwise emit the raw
string.  Used by the text formatter for string payload values. -/
def appendStringValue (value : String) : String :=
  if needsQuoting value then quoteGo value else value

/-- The console formatter's rendering of a string payload value
(formatter.go line 684): always `strconv.Quote`, with no
`needsQuoting` check. -/
def consoleStringValue (value : String) : String :=
  quoteGo value

theorem unquoteAux_quote (l rest : List Char) (h : unquoteAux rest = some l) :
    ∀ c : Char, unquoteAux (quoteChar c ++ rest) = some (c :: l) := by
  intro c
  by_cases h1 : c = '"'
  · subst h1
    simp [quoteChar, unquoteAux, unescapeChar, h]
  · by_cases h2 : c = '\\'
    · subst h2
      simp [quoteChar, unquoteAux, unescapeChar, h]
    · by_cases h3 : c = '\n'
      · subst h3
        simp [quoteChar, unquoteAux, unescapeChar, h]
      · by_cases h4 : c = '\t'
        · subst h4
          simp [quoteChar, unquoteAux, unescapeChar, h]
        · by_cases h5 : c = '\r'
          · subst h5
            simp [quoteChar, unquoteAux, unescapeChar, h]
          · have hq : quoteChar c = [c] := by simp [quoteChar, h1, h2, h3, h4, h5]
            rw [hq, List.singleton_append, unquoteAux.eq_def]
            simp [h1, h2, h]

theorem unquoteAux_flatMap (l : List Char) :
    unquoteAux (l.flatMap quoteChar ++ ['"']) = some l := by
  induction l with
  | nil => simp [unquoteAux]
  | cons c t ih =>
    have := unquoteAux_quote t (t.flatMap quoteChar ++ ['"']) ih c
    simpa [List.flatMap_cons, List.append_assoc] using this

/-- Quoting round-trip: unquoting a `strconv.Quote`d string recovers the
original string exactly. -/
theorem unquoteGo_quoteGo (s : String) : unquoteGo (quoteGo s) = some s := by
  show unquoteGo ⟨'"' :: (s.data.flatMap quoteChar) ++ ['"']⟩ = some s
  rw [unquoteGo]
  simp only [List.cons_append]
  rw [unquoteAux_flatMap]
  rfl

/-!  Masking (src/formatter_masking.go).  -/

/-- ASCII lower-casing of one character, the behaviour of
`strings.ToLower` on the modelled (ASCII) character set. -/
def lowerChar (c : Char) : Char := c.toLower

/-- Model of `strings.ToLower`. -/
def lowerGo (s : String) : String := ⟨s.data.map lowerChar⟩

/-- maskingCore holds the two key sets for redaction
(formatter_masking.go lines 7-10); the Go empty-struct-valued map sets are
modelled as key lists. -/
structure maskingCore where
  sensitiveKeys : List String
  insensitiveKeys : List String
deriving DecidableEq, Repr

/-- addSensitive (formatter_masking.go lines 13-21): register keys for
case-sensitive matching. -/
def maskingCore.addSensitive (mc : maskingCore) (keys : List String) : maskingCore :=
  { mc with sensitiveKeys := mc.sensitiveKeys ++ keys }

/-- addInsensitive (formatter_masking.go lines 25-33): register keys for
case-insensitive matching; keys are stored lower-cased. -/
def maskingCore.addInsensitive (mc : maskingCore) (keys : List String) : maskingCore :=
  { mc with insensitiveKeys := mc.insensitiveKeys ++ keys.map lowerGo }

/-- isMasking (formatter_masking.go lines 38-56): zero-cost check first
when no keys are registered, then the sensitive set, then the
insensitive set against the lower-cased key. -/
def maskingCore.isMasking (mc : maskingCore) (key : String) : Bool :=
  if mc.sensitiveKeys.isEmpty ∧ mc.insensitiveKeys.isEmpty then false
  else if key ∈ mc.sensitiveKeys then true
  else if ¬mc.insensitiveKeys.isEmpty ∧ lowerGo key ∈ mc.insensitiveKeys then true
  else false

/-- Modelled from the spec: no formatter under src/ consults
`maskingCore`, so the application site of the redaction (\"a match
replaces the value with a fixed redaction token before any
quoting/rendering logic runs\") is modelled here from the spec's words;
the concrete spelling of the fixed token is not specified and is an
arbitrary constant. -/
def redactionToken : String := "[MASKED]"

/-- Modelled from the spec: the per-key masking step a formatter applies
to a payload value before any quoting/rendering logic runs. -/
def maskPayloadValue (mc : maskingCore) (key : String) (v : GoValue) : GoValue :=
  if mc.isMasking key then GoValue.vString redactionToken else v

/-!  The log entry and logger model (src/logger.go).  -/

/-- LogEntry (logger.go lines 1507-1523), the internal data container
for one log entry.  The timestamp is carried as its RFC3339 rendering. -/
structure LogEntry where
  message : String
  severity : LogLevel
  trace : String
  spanID : String
  traceSampled : Option Bool
  httpRequest : Option HTTPRequest
  sourceLocation : Option SourceLocation
  time : String
  labels : SMap String
  correlationID : String
  payload : SMap GoValue
deriving DecidableEq, Repr

/-- The outcome of one `Hook.Fire` invocation: a normal return carrying
the (ignored) error value, or a panic carrying the raised value. -/
inductive FireResult where
  | returned (err : Option String)
  | panicked (value : GoValue)
deriving DecidableEq, Repr

/-- Hook (src/hook.go): declares the severities it wants and a `Fire`
handler. -/
structure Hook where
  levels : List LogLevel
  fire : LogEntry → FireResult

/-- The state of the buffered hook channel: its buffered entries in FIFO
order and whether `close` has been called on it. -/
structure HookChan where
  buffer : List LogEntry
  closed : Bool

/-- Logger (logger.go lines 1596-1622).  The output writer, formatter
choice, source-location mode and mutexes are not modelled (I/O and
runtime stack walking); the Go field `prefix` is named `msgPrefix`
here. -/
structure Logger where
  trace : String
  spanId : String
  traceSampled : Option Bool
  labels : SMap String
  logLevel : Nat
  msgPrefix : String
  correlationID : String
  projectID : String
  payload : SMap GoValue
  traceContextKey : Option String
  hookBufferSize : Nat
  hooks : List Hook
  hookChan : Option HookChan

/-- The defaults of `New` (logger.go lines 1626-1642) before options are
applied: level Info, no identifiers, empty maps, hook buffer size 100. -/
def newLogger : Logger :=
  { trace := "", spanId := "", traceSampled := none, labels := [],
    logLevel := logLevelValue .info, msgPrefix := "", correlationID := "",
    projectID := "", payload := [], traceContextKey := none,
    hookBufferSize := 100, hooks := [], hookChan := none }

/-- A correlation context (`context.Context`), modelled as the mapping
the logger's trace context key is looked up in; a value of string
dynamic type is `GoValue.vString`. -/
abbrev Context := SMap GoValue

/-- Single-character `strings.Split`: split a character list at every
separator occurrence; always returns at least one (possibly empty)
piece. -/
def splitOnChar (sep : Char) : List Char → List (List Char)
  | [] => [[]]
  | c :: rest =>
    match splitOnChar sep rest with
    | [] => [[]]
    | h :: t => if c = sep then [] :: h :: t else (c :: h) :: t

/-- Model of `strings.Split` with a one-character separator. -/
def splitGo (sep : Char) (s : String) : List String :=
  (splitOnChar sep s.data).map (fun l => ⟨l⟩)

/-- One iteration of the key/value loop of applyKVs (logger.go lines
1559-1589): a non-string key skips the pair; the reserved keys `error`,
`httpRequest` and `sourceLocation` get their special treatment; every
other string key writes the generic payload map. -/
def applyOne (e : LogEntry) (k v : GoValue) : LogEntry :=
  match k with
  | .vString key =>
    if key = "error" then
      match v with
      | .vError m => { e with payload := setKey e.payload key (.vString m) }
      | _ => { e with payload := setKey e.payload key v }
    else if key = "httpRequest" then
      match v with
      | .vHTTPRequest r => { e with httpRequest := some r }
      | _ => { e with payload := setKey e.payload key v }
    else if key = "sourceLocation" then
      match v with
      | .vSourceLocation sl => { e with sourceLocation := some sl }
      | _ => { e with payload := setKey e.payload key v }
    else { e with payload := setKey e.payload key v }
  | _ => e

/-- The even-length key/value loop of applyKVs. -/
def applyPairs (e : LogEntry) : List GoValue → LogEntry
  | [] => e
  | [_] => e
  | k :: v :: rest => applyPairs (applyOne e k v) rest

/-- applyKVs (logger.go lines 1546-1590): on an odd-length argument list
the dangling string key receives the placeholder value, a diagnostic is
recorded under `logging_error`, and the loop runs on the even prefix. -/
def applyKVs (e : LogEntry) (kvs : List GoValue) : LogEntry :=
  if kvs.length % 2 = 1 then
    let e1 :=
      match kvs.getLast? with
      | some (.vString key) =>
        { e with payload := setKey e.payload key (.vString "KEY_WITHOUT_VALUE") }
      | _ => e
    let e2 := { e1 with payload := setKey e1.payload "logging_error" (.vString "odd number of arguments received") }
    applyPairs e2 kvs.dropLast
  else applyPairs e kvs

/-- Flatten a bound-fields map into the alternating key/value argument
list `createEntry` builds from `l.payload` (logger.go lines 2134-2141);
Go map iteration order is arbitrary, the list order stands in for it. -/
def flattenKVs (m : SMap GoValue) : List GoValue :=
  m.foldr (fun p acc => .vString p.1 :: p.2 :: acc) []

/-- Step 1 of createEntry (logger.go lines 2106-2115): the base entry
taken from the logger's own fields.  Note it takes the logger's labels
map itself (`e.Labels = l.labels` aliases it; see `dispatch`). -/
def baseEntry (l : Logger) (now : String) (level : LogLevel) (msg : String) : LogEntry :=
  { message := l.msgPrefix ++ msg, severity := level, trace := l.trace,
    spanID := l.spanId, traceSampled := l.traceSampled, httpRequest := none,
    sourceLocation := none, time := now, labels := l.labels,
    correlationID := l.correlationID, payload := [] }

/-- Step 2 of createEntry (logger.go lines 2118-2131): trace/span
extraction from the correlation context, applied only when the logger
has a non-empty project id and a non-nil context key and the context
value under that key has string type, and only into fields the base
entry left empty. -/
def ctxApply (l : Logger) (ctx : Option Context) (e0 : LogEntry) : LogEntry :=
  match ctx, l.traceContextKey with
  | some c, some key =>
    if l.projectID ≠ "" then
      match lookupKey key c with
      | some (.vString traceHeader) =>
        let parts := splitGo '/' traceHeader
        let eA :=
          if parts.length > 0 ∧ e0.trace = "" then
            { e0 with trace := "projects/" ++ l.projectID ++ "/traces/" ++ parts.headD "" }
          else e0
        if parts.length > 1 ∧ eA.spanID = "" then
          { eA with spanID := (splitGo ';' (parts.getD 1 "")).headD "" }
        else eA
      | _ => e0
    else e0
  | _, _ => e0

/-- createEntry (logger.go lines 2104-2150): the base entry, the
context extraction, then the bound fields (step 3, lines 2134-2142) and
the call-site arguments (step 4, lines 2145-2147), in that order. -/
def createEntry (l : Logger) (ctx : Option Context) (now : String)
    (level : LogLevel) (msg : String) (kvs : List GoValue) : LogEntry :=
  let e1 := ctxApply l ctx (baseEntry l now level msg)
  let e2 := if l.payload.length > 0 then applyKVs e1 (flattenKVs l.payload) else e1
  if kvs.length > 0 then applyKVs e2 kvs else e2

/-!  A write-sequence view of applyKVs, used for the precedence proofs.  -/

/-- One entry mutation performed by the key/value loop: a generic
payload-map write, a promoted httpRequest field write, or a promoted
sourceLocation field write. -/
inductive EntryWrite where
  | pw (k : String) (v : GoValue)
  | hw (r : HTTPRequest)
  | sw (sl : SourceLocation)
deriving DecidableEq, Repr

/-- The mutation one key/value pair performs, if any. -/
def writeOfPair (k v : GoValue) : Option EntryWrite :=
  match k with
  | .vString key =>
    if key = "error" then
      some (.pw key (match v with | .vError m => .vString m | _ => v))
    else if key = "httpRequest" then
      (match v with | .vHTTPRequest r => some (.hw r) | _ => some (.pw key v))
    else if key = "sourceLocation" then
      (match v with | .vSourceLocation sl => some (.sw sl) | _ => some (.pw key v))
    else some (.pw key v)
  | _ => none

/-- The mutation sequence of the even-length key/value loop. -/
def pairWrites : List GoValue → List EntryWrite
  | [] => []
  | [_] => []
  | k :: v :: rest => (writeOfPair k v).toList ++ pairWrites rest

/-- The mutation sequence of a full applyKVs call, the odd-length
adjustment included. -/
def kvWrites (kvs : List GoValue) : List EntryWrite :=
  if kvs.length % 2 = 1 then
    (match kvs.getLast? with
     | some (.vString key) => [.pw key (.vString "KEY_WITHOUT_VALUE")]
     | _ => []) ++
    (EntryWrite.pw "logging_error" (.vString "odd number of arguments received") ::
      pairWrites kvs.dropLast)
  else pairWrites kvs

/-- Replay one mutation on an entry. -/
def applyWrite (e : LogEntry) : EntryWrite → LogEntry
  | .pw k v => { e with payload := setKey e.payload k v }
  | .hw r => { e with httpRequest := some r }
  | .sw sl => { e with sourceLocation := some sl }

/-- Replay a mutation sequence, earliest first. -/
def applyWrites (e : LogEntry) : List EntryWrite → LogEntry
  | [] => e
  | w :: ws => applyWrites (applyWrite e w) ws

/-- The last value a mutation sequence writes under payload key `k`. -/
def lastPW (k : String) : List EntryWrite → Option GoValue
  | [] => none
  | w :: ws =>
    match lastPW k ws with
    | some v => some v
    | none => match w with
      | .pw k' v => if k' = k then some v else none
      | _ => none

/-- The last httpRequest field value a mutation sequence writes. -/
def lastHW : List EntryWrite → Option HTTPRequest
  | [] => none
  | w :: ws =>
    match lastHW ws with
    | some r => some r
    | none => match w with
      | .hw r => some r
      | _ => none

/-- The last sourceLocation field value a mutation sequence writes. -/
def lastSW : List EntryWrite → Option SourceLocation
  | [] => none
  | w :: ws =>
    match lastSW ws with
    | some sl => some sl
    | none => match w with
      | .sw sl => some sl
      | _ => none

theorem applyOne_eq_write (e : LogEntry) (k v : GoValue) :
    applyOne e k v = (match writeOfPair k v with
      | some w => applyWrite e w
      | none => e) := by
  cases k with
  | vString key =>
    by_cases h1 : key = "error"
    · subst h1
      cases v <;> simp [applyOne, writeOfPair, applyWrite]
    · by_cases h2 : key = "httpRequest"
      · subst h2
        cases v <;> simp [applyOne, writeOfPair, applyWrite, h1]
      · by_cases h3 : key = "sourceLocation"
        · subst h3
          cases v <;> simp [applyOne, writeOfPair, applyWrite, h1, h2]
        · cases v <;> simp [applyOne, writeOfPair, applyWrite, h1, h2, h3]
  | vBool b => simp [applyOne, writeOfPair]
  | vInt n => simp [applyOne, writeOfPair]
  | vError m => simp [applyOne, writeOfPair]
  | vHTTPRequest r => simp [applyOne, writeOfPair]
  | vSourceLocation sl => simp [applyOne, writeOfPair]
  | vStringer s => simp [applyOne, writeOfPair]
  | vOther s => simp [applyOne, writeOfPair]

theorem applyPairs_eq_writes (kvs : List GoValue) :
    ∀ e : LogEntry, applyPairs e kvs = applyWrites e (pairWrites kvs) := by
  match kvs with
  | [] => intro e; simp [applyPairs, pairWrites, applyWrites]
  | [x] => intro e; simp [applyPairs, pairWrites, applyWrites]
  | k :: v :: rest =>
    intro e
    rw [applyPairs, pairWrites, applyOne_eq_write]
    cases hw : writeOfPair k v with
    | none => simp [applyPairs_eq_writes rest, applyWrites]
    | some w => simp [applyPairs_eq_writes rest, applyWrites]

theorem applyKVs_eq_writes (e : LogEntry) (kvs : List GoValue) :
    applyKVs e kvs = applyWrites e (kvWrites kvs) := by
  rw [applyKVs, kvWrites]
  by_cases hodd : kvs.length % 2 = 1
  · simp only [hodd, if_true]
    cases hl : kvs.getLast? with
    | none => simp [applyPairs_eq_writes, applyWrites, applyWrite]
    | some g =>
      cases g <;> simp [applyPairs_eq_writes, applyWrites, applyWrite]
  · simp [hodd, applyPairs_eq_writes]

theorem applyWrites_payload (ws : List EntryWrite) :
    ∀ (e : LogEntry) (k : String),
      lookupKey k (applyWrites e ws).payload =
        (match lastPW k ws with
         | some v => some v
         | none => lookupKey k e.payload) := by
  match ws with
  | [] => intro e k; simp [applyWrites, lastPW]
  | w :: ws' =>
    intro e k
    rw [applyWrites, applyWrites_payload ws']
    cases hlast : lastPW k ws' with
    | some v => simp [lastPW, hlast]
    | none =>
      simp only [lastPW, hlast]
      cases w with
      | pw k' v =>
        by_cases hk : k' = k
        · subst hk
          simp [applyWrite, lookupKey_setKey_self]
        · simp [applyWrite, lookupKey_setKey_other _ _ _ _ (fun h => hk h.symm), hk]
      | hw r => simp [applyWrite]
      | sw sl => simp [applyWrite]

theorem applyWrites_httpRequest (ws : List EntryWrite) :
    ∀ e : LogEntry, (applyWrites e ws).httpRequest =
      (match lastHW ws with
       | some r => some r
       | none => e.httpRequest) := by
  match ws with
  | [] => intro e; simp [applyWrites, lastHW]
  | w :: ws' =>
    intro e
    rw [applyWrites, applyWrites_httpRequest ws']
    cases hlast : lastHW ws' with
    | some r => simp [lastHW, hlast]
    | none =>
      simp only [lastHW, hlast]
      cases w <;> simp [applyWrite]

theorem applyWrites_sourceLocation (ws : List EntryWrite) :
    ∀ e : LogEntry, (applyWrites e ws).sourceLocation =
      (match lastSW ws with
       | some sl => some sl
       | none => e.sourceLocation) := by
  match ws with
  | [] => intro e; simp [applyWrites, lastSW]
  | w :: ws' =>
    intro e
    rw [applyWrites, applyWrites_sourceLocation ws']
    cases hlast : lastSW ws' with
    | some sl => simp [lastSW, hlast]
    | none =>
      simp only [lastSW, hlast]
      cases w <;> simp [applyWrite]

theorem applyWrites_frame (ws : List EntryWrite) :
    ∀ e : LogEntry,
      (applyWrites e ws).message = e.message ∧
      (applyWrites e ws).severity = e.severity ∧
      (applyWrites e ws).trace = e.trace ∧
      (applyWrites e ws).spanID = e.spanID ∧
      (applyWrites e ws).traceSampled = e.traceSampled ∧
      (applyWrites e ws).time = e.time ∧
      (applyWrites e ws).labels = e.labels ∧
      (applyWrites e ws).correlationID = e.correlationID := by
  match ws with
  | [] => intro e; simp [applyWrites]
  | w :: ws' =>
    intro e
    rw [applyWrites]
    have ih := applyWrites_frame ws' (applyWrite e w)
    cases w <;> simpa [applyWrite] using ih

/-!  Dispatch, the hook subsystem and shutdown (src/logger.go).  -/

/-- Element-wise copy of a Go map (the loop of defensiveCopy,
logger.go lines 1746-1753). -/
def copyMap {α : Type} (m : SMap α) : SMap α :=
  m.foldl (fun acc p => setKey acc p.1 p.2) []

/-- defensiveCopy (logger.go lines 1743-1757): a shallow struct copy
whose Payload map is copied element-wise.  The Labels map of the copy
still aliases the original's (the source copies only Payload). -/
def defensiveCopy (e : LogEntry) : LogEntry :=
  { e with payload := copyMap e.payload }

/-- The non-blocking `select`/`default` send of dispatch (logger.go
lines 2090-2095) on an open buffered channel: append when the buffer
has room, otherwise drop and report `false`.  (Sending on a closed Go
channel is a runtime panic; the dispatch model is for loggers whose
channel, if any, is open.) -/
def trySelectSend (buffer : List LogEntry) (capacity : Nat) (x : LogEntry) :
    List LogEntry × Bool :=
  if buffer.length < capacity then (buffer ++ [x], true) else (buffer, false)

/-- The observable outcome of one dispatch call: the entry handed to the
synchronous format-and-write path, the logger state after the deferred
pool release ran, and the entry enqueued for the hook worker, if any. -/
structure DispatchResult where
  printed : LogEntry
  loggerAfter : Logger
  enqueued : Option LogEntry

/-- dispatch (logger.go lines 2071-2099).  The entry is built by
createEntry, optionally submitted to the hook channel with a
non-blocking send of a defensive copy, then printed; the deferred
`e.Clear()` then clears the entry's maps for pool reuse.  Because
createEntry aliases `e.Labels = l.labels`, that `clear(e.Labels)`
empties the logger's own labels map: the logger state after the call
has empty labels.  (Automatic source-location capture walks the runtime
stack and is not modelled; the formatter and sink writes are I/O.) -/
def dispatch (l : Logger) (ctx : Option Context) (now : String)
    (level : LogLevel) (msg : String) (kvs : List GoValue) : DispatchResult :=
  let e := createEntry l ctx now level msg kvs
  match l.hookChan with
  | some ch =>
    let hookEntry := defensiveCopy e
    let sendResult := trySelectSend ch.buffer l.hookBufferSize hookEntry
    { printed := e,
      loggerAfter := { l with hookChan := some { ch with buffer := sendResult.1 },
                              labels := [] },
      enqueued := if sendResult.2 then some hookEntry else none }
  | none =>
    { printed := e, loggerAfter := { l with labels := [] }, enqueued := none }

/-- The hooks registered for one severity: the per-severity index
`hooksByLevel` built by New (logger.go lines 1648-1672), read by
fireHooks.  A hook with an empty level list is registered for every
severity except OFF; OFF itself is never registered. -/
def hooksFor (hooks : List Hook) (lv : LogLevel) : List Hook :=
  if lv = .off then []
  else hooks.filter (fun h => h.levels.isEmpty || lv ∈ h.levels)

/-- The self-diagnostic entry built in the panic recovery of fireHooks
(logger.go lines 1721-1726).  (The conditional source-location capture
on lines 1728-1731 walks the runtime stack and is not modelled.) -/
def panicDiagnostic (now : String) (r : GoValue) : LogEntry :=
  { message := "A hook panicked", severity := .error, trace := "", spanID := "",
    traceSampled := none, httpRequest := none, sourceLocation := none,
    time := now, labels := [], correlationID := "", payload := [("panic", r)] }

/-- The per-hook loop of fireHooks: each hook gets a defensive copy of
the entry and is invoked inside a recover wrapper; a panic produces one
ERROR diagnostic through the synchronous print path and the loop
continues with the next hook.  Returns the outcome of every invocation
and the diagnostics printed. -/
def fireHooksLoop (now : String) (entry : LogEntry) :
    List Hook → List FireResult × List LogEntry
  | [] => ([], [])
  | h :: t =>
    let res := h.fire (defensiveCopy entry)
    let rest := fireHooksLoop now entry t
    match res with
    | .panicked r => (res :: rest.1, panicDiagnostic now r :: rest.2)
    | .returned err => (.returned err :: rest.1, rest.2)

/-- fireHooks (logger.go lines 1709-1740): look up the hooks registered
for the entry's severity and run the per-hook loop. -/
def fireHooks (l : Logger) (now : String) (entry : LogEntry) :
    List FireResult × List LogEntry :=
  fireHooksLoop now entry (hooksFor l.hooks entry.severity)

/-- runHookWorker (logger.go lines 1698-1706): drain the queued entries
in FIFO order, firing the hooks for each. -/
def runHookWorker (l : Logger) (now : String) (queued : List LogEntry) :
    List (List FireResult × List LogEntry) :=
  queued.map (fireHooks l now)

/-- Close (logger.go lines 1686-1695): with no hook channel, return nil
immediately; with one, `close` it and wait for the worker to drain.
Closing an already-closed Go channel is a runtime panic, modelled as
`.error`.  The second component of a successful result is the already
enqueued entries the worker processes before `hookWg.Wait` returns. -/
def Logger.Close (l : Logger) : Except String (Logger × List LogEntry) :=
  match l.hookChan with
  | none => .ok (l, [])
  | some ch =>
    if ch.closed then .error "close of closed channel"
    else .ok ({ l with hookChan := some { buffer := [], closed := true } }, ch.buffer)

/-- The pair loop of `With` (logger.go lines 2329-2336): panic on the
first non-string key, otherwise add each pair to the cloned logger's
bound payload. -/
def withPairs (m : SMap GoValue) : List GoValue → Except String (SMap GoValue)
  | [] => .ok m
  | [_] => .ok m
  | k :: v :: rest =>
    match k with
    | .vString key => withPairs (setKey m key v) rest
    | _ => .error "log.With: non-string key"

/-- With (logger.go lines 2320-2339): panics on an odd-length argument
list or a non-string key; otherwise returns a clone with the pairs
added to its bound payload. -/
def Logger.With (l : Logger) (kvs : List GoValue) : Except String Logger :=
  if kvs.length % 2 = 1 then .error "log.With: odd number of arguments received"
  else (withPairs l.payload kvs).map (fun m => { l with payload := m })

/-!  The text and console formatters (src/formatter.go).  -/

/-- Model of `fmt.Sprint` on the value universe: strings print
themselves, errors print their message, pointers to the structured
records print Go's `&{...}` notation with space-separated fields. -/
def sprintGo : GoValue → String
  | .vString s => s
  | .vBool b => if b then "true" else "false"
  | .vInt n => toString n
  | .vError m => m
  | .vStringer s => s
  | .vOther r => r
  | .vHTTPRequest r =>
    "&\x7b" ++ r.requestMethod ++ " " ++ r.requestURL ++ " " ++ toString r.status ++
      " " ++ r.userAgent ++ " " ++ r.remoteIP ++ " " ++ r.latency ++ "\x7d"
  | .vSourceLocation sl =>
    "&\x7b" ++ sl.file ++ " " ++ toString sl.line ++ " " ++ sl.function ++ "\x7d"

/-- The payload value switch of textFormatter.Format (formatter.go lines
325-356): strings, Stringers and the default `fmt.Sprint` case go
through appendStringValue; booleans and integers are written raw. -/
def renderValueText : GoValue → String
  | .vString s => appendStringValue s
  | .vBool b => if b then "true" else "false"
  | .vInt n => toString n
  | .vStringer s => appendStringValue s
  | .vError m => appendStringValue m
  | .vHTTPRequest r => appendStringValue (sprintGo (.vHTTPRequest r))
  | .vSourceLocation sl => appendStringValue (sprintGo (.vSourceLocation sl))
  | .vOther r => appendStringValue r

/-- The payload value switch of consoleFormatter.Format (formatter.go
lines 682-713): strings are always `strconv.Quote`d; Stringers and the
default `fmt.Sprint` case are written raw, as are booleans and
integers. -/
def renderValueConsole : GoValue → String
  | .vString s => quoteGo s
  | .vBool b => if b then "true" else "false"
  | .vInt n => toString n
  | .vStringer s => s
  | .vError m => m
  | .vHTTPRequest r => sprintGo (.vHTTPRequest r)
  | .vSourceLocation sl => sprintGo (.vSourceLocation sl)
  | .vOther r => r

/-- `sort.Strings`, modelled by insertion sort under the lexicographic
order. -/
def sortStrings (l : List String) : List String :=
  List.insertionSort (fun a b => a ≤ b) l

/-- Whether the formatters render any HTTP-request sub-field for the
entry, i.e. the final value of their `isHttpRequest` flag. -/
def isHttpRendered (e : LogEntry) : Bool :=
  match e.httpRequest with
  | some r => r.requestMethod ≠ "" ∨ r.status ≠ 0 ∨ r.requestURL ≠ ""
  | none => false

/-- The special-field section shared by textFormatter.Format (lines
189-275) and consoleFormatter.Format (lines 547-633): source location
(only when the payload does not itself hold a `sourceLocation` key),
trace, span, correlation id, then the HTTP-request sub-fields.  Each
element is the rendered key together with its full `key=value, `
fragment. -/
def specialSegs (e : LogEntry) : List (String × String) :=
  (match e.sourceLocation with
   | some sl =>
     if lookupKey "sourceLocation" e.payload = none then
       [("source", "source=\"" ++ sl.file ++ ":" ++ toString sl.line ++ "\", ")]
     else []
   | none => []) ++
  (if e.trace ≠ "" then [("trace", "trace=\"" ++ e.trace ++ "\", ")] else []) ++
  (if e.spanID ≠ "" then [("spanId", "spanId=\"" ++ e.spanID ++ "\", ")] else []) ++
  (if e.correlationID ≠ "" then
    [("correlationId", "correlationId=\"" ++ e.correlationID ++ "\", ")] else []) ++
  (match e.httpRequest with
   | some r =>
     (if r.requestMethod ≠ "" then
       [("http.method", "http.method=\"" ++ r.requestMethod ++ "\", ")] else []) ++
     (if r.status ≠ 0 then
       [("http.status", "http.status=" ++ toString r.status ++ ", ")] else []) ++
     (if r.requestURL ≠ "" then
       [("http.url", "http.url=\"" ++ r.requestURL ++ "\", ")] else [])
   | none => [])

/-- The label section shared by both formatters (text lines 277-295,
console lines 635-653): keys sorted, each rendered under a `label.`
prefix with a `strconv.Quote`d value. -/
def labelSegs (e : LogEntry) : List (String × String) :=
  (sortStrings (keysOf e.labels)).map (fun k =>
    ("label." ++ k, "label." ++ k ++ "=" ++ quoteGo ((lookupKey k e.labels).getD "") ++ ", "))

/-- Whether the payload loop of the formatters skips key `k` (text lines
306-320, console lines 664-678): the four reserved names are skipped
when the corresponding special field was rendered. -/
def suppressedPayloadKey (e : LogEntry) (k : String) : Bool :=
  (e.trace ≠ "" ∧ k = "trace") ∨
  (e.spanID ≠ "" ∧ k = "spanId") ∨
  (e.correlationID ≠ "" ∧ k = "correlationId") ∨
  (isHttpRendered e ∧ k = "httpRequest")

/-- The payload section of a formatter, parametrised by its value
rendering: keys sorted, the suppressed reserved names dropped. -/
def payloadSegs (render : GoValue → String) (e : LogEntry) : List (String × String) :=
  (sortStrings (keysOf e.payload)).filterMap (fun k =>
    if suppressedPayloadKey e k then none
    else some (k, k ++ "=" ++ render ((lookupKey k e.payload).getD (.vString "")) ++ ", "))

/-- The full field section of textFormatter.Format, in rendering
order. -/
def textSegs (e : LogEntry) : List (String × String) :=
  specialSegs e ++ labelSegs e ++ payloadSegs renderValueText e

/-- The full field section of consoleFormatter.Format (with colour
disabled and no highlights, the path that writes plain `key=value`
text), in rendering order. -/
def consoleSegs (e : LogEntry) : List (String × String) :=
  specialSegs e ++ labelSegs e ++ payloadSegs renderValueConsole e

/-- Drop one trailing newline, the truncation of formatter.go lines
170-174. -/
def trimNewline (s : String) : String :=
  if s.data.getLast? = some '\n' then ⟨s.data.dropLast⟩ else s

/-- The `timestamp [SEVERITY] message` header of the text formatter. -/
def textHeader (e : LogEntry) : String :=
  trimNewline (e.time ++ " [" ++ e.severity.name ++ "] " ++ e.message)

/-- Drop the last two characters (the trailing `, ` truncation of
formatter.go lines 364-373). -/
def dropLastTwo (s : String) : String := ⟨s.data.dropLast.dropLast⟩

/-- textFormatter.Format (formatter.go lines 152-376): header, then the
field section in braces when any field rendered, with the trailing
separator truncated; with no fields the ` { ` opener is truncated
away. -/
def textFormat (e : LogEntry) : String :=
  let segs := textSegs e
  if segs.isEmpty then textHeader e
  else textHeader e ++ " \x7b " ++ dropLastTwo (String.join (segs.map Prod.snd)) ++ " \x7d"

/-- The rendered key sequence of the text format. -/
def textKeys (e : LogEntry) : List String := (textSegs e).map Prod.fst

/-- The rendered key sequence of the console format. -/
def consoleKeys (e : LogEntry) : List String := (consoleSegs e).map Prod.fst

/-!  Structural lemmas about createEntry, map copies and write lists.  -/

/-- The extracted trace header, when the guard of step 2 of createEntry
passes: a context is supplied, the logger has a project id and a
context key, and the context value under that key is a string. -/
def ctxTraceHeader (l : Logger) (ctx : Option Context) : Option String :=
  match ctx, l.traceContextKey with
  | some c, some key =>
    if l.projectID ≠ "" then
      match lookupKey key c with
      | some (.vString h) => some h
      | _ => none
    else none
  | _, _ => none

theorem splitOnChar_ne_nil (sep : Char) (l : List Char) : splitOnChar sep l ≠ [] := by
  cases l with
  | nil => simp [splitOnChar]
  | cons c rest =>
    rw [splitOnChar]
    cases h : splitOnChar sep rest with
    | nil => simp
    | cons a b => by_cases hc : c = sep <;> simp [hc]

theorem splitGo_length_pos (sep : Char) (s : String) : (splitGo sep s).length > 0 := by
  rw [splitGo, List.length_map]
  cases h : splitOnChar sep s.data with
  | nil => exact absurd h (splitOnChar_ne_nil sep s.data)
  | cons a b => simp

theorem ctxApply_eq_header (l : Logger) (ctx : Option Context) (e0 : LogEntry) :
    ctxApply l ctx e0 =
      (match ctxTraceHeader l ctx with
       | none => e0
       | some h =>
         let parts := splitGo '/' h
         let eA :=
           if parts.length > 0 ∧ e0.trace = "" then
             { e0 with trace := "projects/" ++ l.projectID ++ "/traces/" ++ parts.headD "" }
           else e0
         if parts.length > 1 ∧ eA.spanID = "" then
           { eA with spanID := (splitGo ';' (parts.getD 1 "")).headD "" }
         else eA) := by
  rcases ctx with _ | c
  · rcases hk : l.traceContextKey with _ | key <;> simp [ctxApply, ctxTraceHeader, hk]
  · rcases hk : l.traceContextKey with _ | key
    · simp [ctxApply, ctxTraceHeader, hk]
    · by_cases hp : l.projectID = ""
      · simp [ctxApply, ctxTraceHeader, hk, hp]
      · rcases hv : lookupKey key c with _ | v
        · simp [ctxApply, ctxTraceHeader, hk, hp, hv]
        · cases v <;> simp [ctxApply, ctxTraceHeader, hk, hp, hv]

theorem ctxApply_frame (l : Logger) (ctx : Option Context) (e0 : LogEntry) :
    (ctxApply l ctx e0).payload = e0.payload ∧
    (ctxApply l ctx e0).httpRequest = e0.httpRequest ∧
    (ctxApply l ctx e0).sourceLocation = e0.sourceLocation ∧
    (ctxApply l ctx e0).labels = e0.labels ∧
    (ctxApply l ctx e0).message = e0.message ∧
    (ctxApply l ctx e0).severity = e0.severity ∧
    (ctxApply l ctx e0).time = e0.time ∧
    (ctxApply l ctx e0).correlationID = e0.correlationID ∧
    (ctxApply l ctx e0).traceSampled = e0.traceSampled := by
  rw [ctxApply_eq_header]
  cases hh : ctxTraceHeader l ctx with
  | none => exact ⟨rfl, rfl, rfl, rfl, rfl, rfl, rfl, rfl, rfl⟩
  | some h =>
    simp only []
    split <;> split <;> exact ⟨rfl, rfl, rfl, rfl, rfl, rfl, rfl, rfl, rfl⟩

theorem ctxApply_trace (l : Logger) (ctx : Option Context) (e0 : LogEntry) :
    (ctxApply l ctx e0).trace =
      (match ctxTraceHeader l ctx with
       | some h =>
         if e0.trace = "" then
           "projects/" ++ l.projectID ++ "/traces/" ++ (splitGo '/' h).headD ""
         else e0.trace
       | none => e0.trace) := by
  rw [ctxApply_eq_header]
  cases hh : ctxTraceHeader l ctx with
  | none => rfl
  | some h =>
    have hpos : (splitGo '/' h).length > 0 := splitGo_length_pos '/' h
    by_cases ht : e0.trace = "" <;>
      simp [hpos, ht, apply_ite LogEntry.trace]

theorem ctxApply_spanID (l : Logger) (ctx : Option Context) (e0 : LogEntry) :
    (ctxApply l ctx e0).spanID =
      (match ctxTraceHeader l ctx with
       | some h =>
         if (splitGo '/' h).length > 1 ∧ e0.spanID = "" then
           (splitGo ';' ((splitGo '/' h).getD 1 "")).headD ""
         else e0.spanID
       | none => e0.spanID) := by
  rw [ctxApply_eq_header]
  cases hh : ctxTraceHeader l ctx with
  | none => rfl
  | some h =>
    by_cases hlen : (splitGo '/' h).length > 1 <;>
      by_cases hsp : e0.spanID = "" <;>
        simp [hlen, hsp, apply_ite LogEntry.spanID, apply_ite LogEntry.trace]

theorem applyKVs_nil (e : LogEntry) : applyKVs e [] = e := by
  simp [applyKVs, applyPairs]

theorem createEntry_eq (l : Logger) (ctx : Option Context) (now : String)
    (level : LogLevel) (msg : String) (kvs : List GoValue) :
    createEntry l ctx now level msg kvs =
      applyKVs (applyKVs (ctxApply l ctx (baseEntry l now level msg))
        (flattenKVs l.payload)) kvs := by
  rw [createEntry]
  by_cases h1 : l.payload.length > 0
  · by_cases h2 : kvs.length > 0
    · simp [h1, h2]
    · have : kvs = [] := List.length_eq_zero.mp (by omega)
      simp [h1, h2, this, applyKVs_nil]
  · have hnil : l.payload = [] := List.length_eq_zero.mp (by omega)
    by_cases h2 : kvs.length > 0
    · simp [h1, h2, hnil, flattenKVs, applyKVs_nil]
    · have : kvs = [] := List.length_eq_zero.mp (by omega)
      simp [h1, h2, hnil, this, flattenKVs, applyKVs_nil]

theorem createEntry_payload_lookup (l : Logger) (ctx : Option Context) (now : String)
    (level : LogLevel) (msg : String) (kvs : List GoValue) (k : String) :
    lookupKey k (createEntry l ctx now level msg kvs).payload =
      (match lastPW k (kvWrites kvs) with
       | some v => some v
       | none => lastPW k (kvWrites (flattenKVs l.payload))) := by
  rw [createEntry_eq, applyKVs_eq_writes, applyKVs_eq_writes, applyWrites_payload,
    applyWrites_payload]
  have hbase : (ctxApply l ctx (baseEntry l now level msg)).payload = [] :=
    (ctxApply_frame l ctx (baseEntry l now level msg)).1
  rw [hbase]
  cases lastPW k (kvWrites kvs) with
  | some v => rfl
  | none => cases lastPW k (kvWrites (flattenKVs l.payload)) <;> simp [lookupKey]

theorem createEntry_httpRequest (l : Logger) (ctx : Option Context) (now : String)
    (level : LogLevel) (msg : String) (kvs : List GoValue) :
    (createEntry l ctx now level msg kvs).httpRequest =
      (match lastHW (kvWrites kvs) with
       | some r => some r
       | none => lastHW (kvWrites (flattenKVs l.payload))) := by
  rw [createEntry_eq, applyKVs_eq_writes, applyKVs_eq_writes, applyWrites_httpRequest,
    applyWrites_httpRequest]
  have hbase : (ctxApply l ctx (baseEntry l now level msg)).httpRequest = none :=
    (ctxApply_frame l ctx (baseEntry l now level msg)).2.1
  rw [hbase]
  cases lastHW (kvWrites kvs) with
  | some r => rfl
  | none => cases lastHW (kvWrites (flattenKVs l.payload)) <;> rfl

theorem createEntry_sourceLocation (l : Logger) (ctx : Option Context) (now : String)
    (level : LogLevel) (msg : String) (kvs : List GoValue) :
    (createEntry l ctx now level msg kvs).sourceLocation =
      (match lastSW (kvWrites kvs) with
       | some sl => some sl
       | none => lastSW (kvWrites (flattenKVs l.payload))) := by
  rw [createEntry_eq, applyKVs_eq_writes, applyKVs_eq_writes, applyWrites_sourceLocation,
    applyWrites_sourceLocation]
  have hbase : (ctxApply l ctx (baseEntry l now level msg)).sourceLocation = none :=
    (ctxApply_frame l ctx (baseEntry l now level msg)).2.2.1
  rw [hbase]
  cases lastSW (kvWrites kvs) with
  | some sl => rfl
  | none => cases lastSW (kvWrites (flattenKVs l.payload)) <;> rfl

theorem createEntry_trace (l : Logger) (ctx : Option Context) (now : String)
    (level : LogLevel) (msg : String) (kvs : List GoValue) :
    (createEntry l ctx now level msg kvs).trace =
      (match ctxTraceHeader l ctx with
       | some h =>
         if l.trace = "" then
           "projects/" ++ l.projectID ++ "/traces/" ++ (splitGo '/' h).headD ""
         else l.trace
       | none => l.trace) := by
  rw [createEntry_eq, applyKVs_eq_writes, applyKVs_eq_writes]
  rw [(applyWrites_frame _ _).2.2.1, (applyWrites_frame _ _).2.2.1]
  rw [ctxApply_trace]
  rfl

theorem createEntry_spanID (l : Logger) (ctx : Option Context) (now : String)
    (level : LogLevel) (msg : String) (kvs : List GoValue) :
    (createEntry l ctx now level msg kvs).spanID =
      (match ctxTraceHeader l ctx with
       | some h =>
         if (splitGo '/' h).length > 1 ∧ l.spanId = "" then
           (splitGo ';' ((splitGo '/' h).getD 1 "")).headD ""
         else l.spanId
       | none => l.spanId) := by
  rw [createEntry_eq, applyKVs_eq_writes, applyKVs_eq_writes]
  rw [(applyWrites_frame _ _).2.2.2.1, (applyWrites_frame _ _).2.2.2.1]
  rw [ctxApply_spanID]
  rfl

theorem createEntry_labels (l : Logger) (ctx : Option Context) (now : String)
    (level : LogLevel) (msg : String) (kvs : List GoValue) :
    (createEntry l ctx now level msg kvs).labels = l.labels := by
  rw [createEntry_eq, applyKVs_eq_writes, applyKVs_eq_writes]
  rw [(applyWrites_frame _ _).2.2.2.2.2.2.1, (applyWrites_frame _ _).2.2.2.2.2.2.1]
  rw [(ctxApply_frame _ _ _).2.2.2.1]
  rfl

theorem applyWrites_payload_nodup (ws : List EntryWrite) :
    ∀ e : LogEntry, (keysOf e.payload).Nodup →
      (keysOf (applyWrites e ws).payload).Nodup := by
  match ws with
  | [] => intro e h; exact h
  | w :: ws' =>
    intro e h
    rw [applyWrites]
    apply applyWrites_payload_nodup ws'
    cases w with
    | pw k v => exact setKey_keys_nodup _ _ _ h
    | hw r => exact h
    | sw sl => exact h

theorem createEntry_payload_nodup (l : Logger) (ctx : Option Context) (now : String)
    (level : LogLevel) (msg : String) (kvs : List GoValue) :
    (keysOf (createEntry l ctx now level msg kvs).payload).Nodup := by
  rw [createEntry_eq, applyKVs_eq_writes, applyKVs_eq_writes]
  apply applyWrites_payload_nodup
  apply applyWrites_payload_nodup
  rw [(ctxApply_frame l ctx (baseEntry l now level msg)).1]
  simp [baseEntry, keysOf]

theorem lookupKey_append {α : Type} (k : String) (m1 m2 : SMap α) :
    lookupKey k (m1 ++ m2) =
      (match lookupKey k m1 with
       | some v => some v
       | none => lookupKey k m2) := by
  induction m1 with
  | nil => simp [lookupKey]
  | cons p rest ih =>
    obtain ⟨k', v'⟩ := p
    by_cases h : k' = k <;> simp [lookupKey, h, ih]

theorem lookupKey_eq_none_iff {α : Type} (k : String) (m : SMap α) :
    lookupKey k m = none ↔ k ∉ keysOf m := by
  induction m with
  | nil => simp [lookupKey, keysOf]
  | cons p rest ih =>
    obtain ⟨k', v'⟩ := p
    have hkeys : keysOf ((k', v') :: rest) = k' :: keysOf rest := rfl
    rw [lookupKey, hkeys]
    by_cases h : k' = k
    · subst h
      simp
    · have hne : ¬k = k' := fun hc => h hc.symm
      simp [h, hne, ih]

theorem lookupKey_reverse_of_nodup {α : Type} (m : SMap α)
    (h : (keysOf m).Nodup) (k : String) :
    lookupKey k m.reverse = lookupKey k m := by
  induction m with
  | nil => rfl
  | cons p rest ih =>
    obtain ⟨k', v'⟩ := p
    rw [keysOf, List.map_cons, List.nodup_cons] at h
    rw [List.reverse_cons, lookupKey_append, ih h.2]
    by_cases hk : k' = k
    · have hnone : lookupKey k rest = none := by
        rw [lookupKey_eq_none_iff]
        exact hk ▸ h.1
      simp [hnone, lookupKey, hk]
    · cases hr : lookupKey k rest <;> simp [lookupKey, hk, hr]

theorem foldl_setKey_lookup {α : Type} (m : SMap α) :
    ∀ (acc : SMap α) (k : String),
      lookupKey k (m.foldl (fun a p => setKey a p.1 p.2) acc) =
        (match lookupKey k m.reverse with
         | some v => some v
         | none => lookupKey k acc) := by
  induction m with
  | nil => intro acc k; simp [lookupKey]
  | cons p rest ih =>
    intro acc k
    obtain ⟨k', v'⟩ := p
    rw [List.foldl_cons, ih, List.reverse_cons, lookupKey_append]
    cases hr : lookupKey k rest.reverse with
    | some v => rfl
    | none =>
      by_cases hk : k' = k
      · subst hk
        simp [lookupKey, lookupKey_setKey_self]
      · simp [lookupKey, hk, lookupKey_setKey_other _ _ _ _ (fun hc => hk hc.symm)]

theorem copyMap_lookup {α : Type} (m : SMap α) (h : (keysOf m).Nodup) (k : String) :
    lookupKey k (copyMap m) = lookupKey k m := by
  rw [copyMap, foldl_setKey_lookup, lookupKey_reverse_of_nodup m h]
  cases lookupKey k m <;> simp [lookupKey]

theorem lastPW_append (k : String) (ws1 ws2 : List EntryWrite) :
    lastPW k (ws1 ++ ws2) =
      (match lastPW k ws2 with
       | some v => some v
       | none => lastPW k ws1) := by
  induction ws1 with
  | nil =>
    rw [List.nil_append]
    cases h2 : lastPW k ws2 <;> simp [lastPW, h2]
  | cons w rest ih =>
    have lh : lastPW k ((w :: rest) ++ ws2) =
        (match lastPW k (rest ++ ws2) with
         | some v => some v
         | none =>
           (match w with
            | EntryWrite.pw k' v => if k' = k then some v else none
            | _ => none)) := rfl
    rw [lh, ih]
    cases h2 : lastPW k ws2 <;> rfl

/-!  Claim theorems.  -/

/-- Claim C10: under the order OFF < CRITICAL < ERROR < WARN < INFO <
DEBUG with ALL the most permissive threshold, a level X is observable
exactly when the configured threshold is at least X's value, and
observability is monotone in severity: whenever a less severe level is
observable at a threshold, every at-least-as-severe level is too. -/
theorem claim_C10_level_gate_monotone :
    (∀ (x : LogLevel) (t : Nat),
       x = .critical ∨ x = .error ∨ x = .warn ∨ x = .info ∨ x = .debug →
       isEnabledFor x t = decide (t ≥ logLevelValue x)) ∧
    (∀ (x1 x2 : LogLevel) (t : Nat),
       (x1 = .critical ∨ x1 = .error ∨ x1 = .warn ∨ x1 = .info ∨ x1 = .debug) →
       (x2 = .critical ∨ x2 = .error ∨ x2 = .warn ∨ x2 = .info ∨ x2 = .debug) →
       logLevelValue x2 ≤ logLevelValue x1 →
       isEnabledFor x1 t = true → isEnabledFor x2 t = true) := by
  constructor
  · intro x t hx
    rcases hx with h | h | h | h | h <;> subst h <;> rfl
  · intro x1 x2 t h1 h2 hle hen
    rcases h1 with h | h | h | h | h <;> subst h <;>
      rcases h2 with h' | h' | h' | h' | h' <;> subst h' <;>
        simp_all [isEnabledFor, isCriticalEnabled, isErrorEnabled, isWarnEnabled,
          isInfoEnabled, isDebugEnabled, logLevelValue] <;> omega

/-- Concrete instance of the C10 theorem: INFO observable at threshold 4
implies ERROR observable at threshold 4. -/
theorem claim_C10_witness :
    isEnabledFor .error 4 = true ∧ isEnabledFor .warn 3 = decide (3 ≥ logLevelValue .warn) :=
  ⟨claim_C10_level_gate_monotone.2 .info .error 4 (by decide) (by decide) (by decide)
      (by decide),
   claim_C10_level_gate_monotone.1 .warn 3 (by decide)⟩

/-- Claim C8: the masking check redacts a key exactly when the key is in
the exact-match set or its lower-cased form is in the case-folded set;
the check is value-independent, skipped when both sets are empty, never
alters a key absent from both sets, and the case-folded set stores its
keys lower-cased. -/
theorem claim_C8_masking_check :
    (∀ (mc : maskingCore) (key : String),
       mc.isMasking key = true ↔
         (key ∈ mc.sensitiveKeys ∨ lowerGo key ∈ mc.insensitiveKeys)) ∧
    (∀ (mc : maskingCore) (key : String),
       mc.sensitiveKeys = [] → mc.insensitiveKeys = [] → mc.isMasking key = false) ∧
    (∀ (mc : maskingCore) (key : String) (v : GoValue),
       key ∈ mc.sensitiveKeys →
       maskPayloadValue mc key v = .vString redactionToken) ∧
    (∀ (mc : maskingCore) (key : String) (v : GoValue),
       key ∉ mc.sensitiveKeys → lowerGo key ∉ mc.insensitiveKeys →
       maskPayloadValue mc key v = v) ∧
    (∀ (mc : maskingCore) (keys : List String),
       (mc.addInsensitive keys).insensitiveKeys = mc.insensitiveKeys ++ keys.map lowerGo) := by
  have hiff : ∀ (mc : maskingCore) (key : String),
      mc.isMasking key = true ↔
        (key ∈ mc.sensitiveKeys ∨ lowerGo key ∈ mc.insensitiveKeys) := by
    intro mc key
    rw [maskingCore.isMasking]
    by_cases h0 : mc.sensitiveKeys.isEmpty ∧ mc.insensitiveKeys.isEmpty
    · rw [if_pos h0]
      have h1 : mc.sensitiveKeys = [] := by simpa using h0.1
      have h2 : mc.insensitiveKeys = [] := by simpa using h0.2
      simp [h1, h2]
    · rw [if_neg h0]
      by_cases hs : key ∈ mc.sensitiveKeys
      · simp [hs]
      · rw [if_neg hs]
        by_cases hi : lowerGo key ∈ mc.insensitiveKeys
        · have hne : ¬mc.insensitiveKeys.isEmpty = true := by
            intro hc
            have : mc.insensitiveKeys = [] := by simpa using hc
            rw [this] at hi
            exact absurd hi (List.not_mem_nil _)
          simp [hs, hi, hne]
        · simp [hs, hi]
  refine ⟨hiff, ?_, ?_, ?_, ?_⟩
  · intro mc key h1 h2
    rw [maskingCore.isMasking, if_pos (by simp [h1, h2])]
  · intro mc key v hs
    have hm : mc.isMasking key = true := (hiff mc key).mpr (Or.inl hs)
    simp [maskPayloadValue, hm]
  · intro mc key v hs hi
    have hm : ¬mc.isMasking key = true := by
      rw [hiff mc key]
      rintro (h | h)
      · exact hs h
      · exact hi h
    simp [maskPayloadValue, hm]
  · intro mc keys
    rfl

/-- Concrete instance of the C8 theorem: the key `token` in the
exact-match set is redacted for an integer value, and the unknown key
`other` is untouched. -/
theorem claim_C8_witness :
    maskPayloadValue ⟨["token"], ["secret"]⟩ "token" (.vInt 7) = .vString redactionToken ∧
    maskPayloadValue ⟨["token"], ["secret"]⟩ "other" (.vInt 7) = .vInt 7 :=
  ⟨claim_C8_masking_check.2.2.1 ⟨["token"], ["secret"]⟩ "token" (.vInt 7) (by decide),
   claim_C8_masking_check.2.2.2.1 ⟨["token"], ["secret"]⟩ "other" (.vInt 7) (by decide)
     (by decide)⟩

/-- Claim C6 counterexample: the claim says a rendered string token is
quoted if and only if it is empty or contains a space, `=` or `"`, with
the same rule across all non-structured formats; but the console format
renders the string `v` quoted although `v` needs no quoting, while the
text format leaves it unquoted, so the biconditional and the
shared-rule statement both fail. -/
theorem claim_C6_counterexample :
    needsQuoting "v" = false ∧
    appendStringValue "v" = "v" ∧
    consoleStringValue "v" = "\"v\"" ∧
    consoleStringValue "v" ≠ "v" := by decide

/-- Claim C6 as amended: the text formatter's string rendering quotes
exactly when needsQuoting holds (empty, or containing a space, `=` or
`"`), quoting round-trips through the defined unescaping, and a
non-empty string with none of those characters renders unquoted there;
the console formatter instead always quotes string values. -/
theorem claim_C6_quoting_amended :
    (∀ s : String, needsQuoting s = false → appendStringValue s = s) ∧
    (∀ s : String, needsQuoting s = true → appendStringValue s = quoteGo s) ∧
    (∀ s : String, unquoteGo (quoteGo s) = some s) ∧
    (∀ s : String, consoleStringValue s = quoteGo s) ∧
    (∀ s : String, s ≠ "" →
      s.data.all (fun c => !(c ∈ charsRequiringQuoting : Bool)) = true →
      needsQuoting s = false) := by
  refine ⟨?_, ?_, unquoteGo_quoteGo, fun s => rfl, ?_⟩
  · intro s h
    simp [appendStringValue, h]
  · intro s h
    simp [appendStringValue, h]
  · intro s hne hall
    rw [needsQuoting, if_neg hne]
    rw [List.all_eq_true] at hall
    rw [List.any_eq_false]
    intro c hc
    have := hall c hc
    simpa using this

/-- Concrete instance of the C6 amended theorem at the strings `v` and
`a"b c`. -/
theorem claim_C6_witness :
    appendStringValue "v" = "v" ∧
    appendStringValue "a\"b c" = quoteGo "a\"b c" ∧
    unquoteGo (quoteGo "a\"b c") = some "a\"b c" ∧
    needsQuoting "v" = false :=
  ⟨claim_C6_quoting_amended.1 "v" (by decide),
   claim_C6_quoting_amended.2.1 "a\"b c" (by decide),
   claim_C6_quoting_amended.2.2.1 "a\"b c",
   claim_C6_quoting_amended.2.2.2.2 "v" (by decide) (by decide)⟩

theorem fireHooksLoop_spec (now : String) (entry : LogEntry) :
    ∀ hs : List Hook,
      (fireHooksLoop now entry hs).1 =
        hs.map (fun h => h.fire (defensiveCopy entry)) ∧
      (fireHooksLoop now entry hs).2 =
        (hs.map (fun h => h.fire (defensiveCopy entry))).filterMap
          (fun res =>
            match res with
            | .panicked r => some (panicDiagnostic now r)
            | .returned _ => none) := by
  intro hs
  induction hs with
  | nil => exact ⟨rfl, rfl⟩
  | cons h t ih =>
    rw [fireHooksLoop]
    cases hres : h.fire (defensiveCopy entry) with
    | panicked r => simp [hres, ih.1, ih.2]
    | returned err => simp [hres, ih.1, ih.2]

/-- Claim C3: for every drained entry, every hook registered for its
severity is invoked exactly once (on a defensive copy), regardless of
earlier hooks panicking; each panic yields exactly one ERROR-severity
self-diagnostic carrying the panic value, emitted through the
synchronous print path rather than the queue; and the worker drains
every queued entry, so a panicking hook stops neither the remaining
hooks nor the worker. -/
theorem claim_C3_hook_panic_isolation :
    (∀ (l : Logger) (now : String) (entry : LogEntry),
       (fireHooks l now entry).1 =
         (hooksFor l.hooks entry.severity).map (fun h => h.fire (defensiveCopy entry))) ∧
    (∀ (l : Logger) (now : String) (entry : LogEntry),
       (fireHooks l now entry).2 =
         ((hooksFor l.hooks entry.severity).map
             (fun h => h.fire (defensiveCopy entry))).filterMap
           (fun res =>
             match res with
             | .panicked r => some (panicDiagnostic now r)
             | .returned _ => none)) ∧
    (∀ (now : String) (r : GoValue),
       (panicDiagnostic now r).severity = .error ∧
       lookupKey "panic" (panicDiagnostic now r).payload = some r) ∧
    (∀ (l : Logger) (now : String) (queued : List LogEntry),
       (runHookWorker l now queued).length = queued.length) := by
  refine ⟨?_, ?_, ?_, ?_⟩
  · intro l now entry
    exact (fireHooksLoop_spec now entry (hooksFor l.hooks entry.severity)).1
  · intro l now entry
    exact (fireHooksLoop_spec now entry (hooksFor l.hooks entry.severity)).2
  · intro now r
    exact ⟨rfl, by simp [panicDiagnostic, lookupKey]⟩
  · intro l now queued
    simp [runHookWorker]

/-- Claim C2: with hooks registered, dispatch submits a defensive copy
of the entry with a non-blocking enqueue: on a full buffer the entry is
dropped for hooks with no error and an unchanged queue, on a non-full
buffer the copy is appended; in both cases the same entry still goes to
the synchronous print path, and the defensive copy carries the same
payload bindings; the default queue capacity is 100. -/
theorem claim_C2_nonblocking_hook_enqueue :
    (∀ (l : Logger) (ch : HookChan) (ctx : Option Context) (now : String)
        (level : LogLevel) (msg : String) (kvs : List GoValue),
       l.hookChan = some ch →
       (dispatch l ctx now level msg kvs).printed = createEntry l ctx now level msg kvs ∧
       (ch.buffer.length ≥ l.hookBufferSize →
         (dispatch l ctx now level msg kvs).enqueued = none ∧
         (dispatch l ctx now level msg kvs).loggerAfter.hookChan = some ch) ∧
       (ch.buffer.length < l.hookBufferSize →
         (dispatch l ctx now level msg kvs).enqueued =
           some (defensiveCopy (createEntry l ctx now level msg kvs)) ∧
         (dispatch l ctx now level msg kvs).loggerAfter.hookChan =
           some ⟨ch.buffer ++ [defensiveCopy (createEntry l ctx now level msg kvs)],
             ch.closed⟩) ∧
       (∀ k : String,
         lookupKey k (defensiveCopy (createEntry l ctx now level msg kvs)).payload =
           lookupKey k (createEntry l ctx now level msg kvs).payload)) ∧
    newLogger.hookBufferSize = 100 := by
  refine ⟨?_, rfl⟩
  intro l ch ctx now level msg kvs h
  refine ⟨?_, ?_, ?_, ?_⟩
  · simp [dispatch, h]
  · intro hfull
    have hnotlt : ¬ch.buffer.length < l.hookBufferSize := by omega
    exact ⟨by simp [dispatch, h, trySelectSend, hnotlt],
      by simp [dispatch, h, trySelectSend, hnotlt]⟩
  · intro hlt
    exact ⟨by simp [dispatch, h, trySelectSend, hlt],
      by simp [dispatch, h, trySelectSend, hlt]⟩
  · intro k
    exact copyMap_lookup _ (createEntry_payload_nodup l ctx now level msg kvs) k

/-- A minimal concrete entry, hook channel and logger exercising the
C2 theorem with a full one-slot queue. -/
def c2Entry : LogEntry :=
  { message := "queued", severity := .info, trace := "", spanID := "",
    traceSampled := none, httpRequest := none, sourceLocation := none,
    time := "T", labels := [], correlationID := "", payload := [] }

def c2Chan : HookChan := ⟨[c2Entry], false⟩

def c2Logger : Logger := { newLogger with hookBufferSize := 1, hookChan := some c2Chan }

/-- Concrete instance of the C2 theorem: a full one-slot queue drops the
entry, leaves the queue unchanged, and the entry is still printed. -/
theorem claim_C2_witness :
    (dispatch c2Logger none "T" .info "hello" []).enqueued = none ∧
    (dispatch c2Logger none "T" .info "hello" []).loggerAfter.hookChan = some c2Chan ∧
    (dispatch c2Logger none "T" .info "hello" []).printed =
      createEntry c2Logger none "T" .info "hello" [] :=
  ⟨((claim_C2_nonblocking_hook_enqueue.1 c2Logger c2Chan none "T" .info "hello" []
      rfl).2.1 (by decide)).1,
   ((claim_C2_nonblocking_hook_enqueue.1 c2Logger c2Chan none "T" .info "hello" []
      rfl).2.1 (by decide)).2,
   (claim_C2_nonblocking_hook_enqueue.1 c2Logger c2Chan none "T" .info "hello" [] rfl).1⟩

/-- Whether a modelled call returned normally (`.ok`) rather than
panicking (`.error`). -/
def exceptIsOk {α : Type} (x : Except String α) : Bool :=
  match x with
  | .ok _ => true
  | .error _ => false

/-- A logger whose hook worker is running (an open hook channel), and
the result of calling Close on it twice. -/
def c4Logger : Logger := { newLogger with hookChan := some ⟨[], false⟩ }

def closeTwice (l : Logger) : Except String (Logger × List LogEntry) :=
  match l.Close with
  | .ok (l2, _) => l2.Close
  | .error m => .error m

/-- Claim C4 counterexample: on a logger with a hook channel the first
Close succeeds but the second panics (close of an already-closed Go
channel), so a repeated Close is not an idempotent no-op. -/
theorem claim_C4_counterexample :
    exceptIsOk c4Logger.Close = true ∧
    closeTwice c4Logger = .error "close of closed channel" :=
  ⟨rfl, rfl⟩

/-- Claim C4 as amended: Close returns nil whenever it returns — it is
an idempotent no-op on a logger with no hook channel; on a logger with
an open hook channel it closes the channel and hands the worker every
already-enqueued entry (all of which the worker processes) before
returning nil; but a second Close on such a logger panics instead of
being a no-op. -/
theorem claim_C4_close_amended :
    (∀ l : Logger, l.hookChan = none → l.Close = .ok (l, [])) ∧
    (∀ (l : Logger) (ch : HookChan), l.hookChan = some ch → ch.closed = false →
       l.Close = .ok ({ l with hookChan := some ⟨[], true⟩ }, ch.buffer)) ∧
    (∀ (l : Logger) (ch : HookChan), l.hookChan = some ch → ch.closed = true →
       l.Close = .error "close of closed channel") ∧
    (∀ (l : Logger) (now : String) (es : List LogEntry),
       (runHookWorker l now es).length = es.length) := by
  refine ⟨?_, ?_, ?_, ?_⟩
  · intro l h
    simp [Logger.Close, h]
  · intro l ch h hc
    simp [Logger.Close, h, hc]
  · intro l ch h hc
    simp [Logger.Close, h, hc]
  · intro l now es
    simp [runHookWorker]

/-- A logger with one buffered hook entry, for the C4 witness. -/
def c4wLogger : Logger := { newLogger with hookChan := some ⟨[c2Entry], false⟩ }

/-- Concrete instance of the C4 amended theorem: the first Close on an
open channel succeeds and drains the one buffered entry; a Close on a
logger without hooks is a no-op returning nil. -/
theorem claim_C4_witness :
    c4wLogger.Close = .ok ({ c4wLogger with hookChan := some ⟨[], true⟩ }, [c2Entry]) ∧
    newLogger.Close = .ok (newLogger, []) :=
  ⟨claim_C4_close_amended.2.1 c4wLogger ⟨[c2Entry], false⟩ rfl rfl,
   claim_C4_close_amended.1 newLogger rfl⟩

/-- A logger with bound labels and bound contextual fields, for the C5
failing input. -/
def c5Logger : Logger :=
  { newLogger with labels := [("user", "test")], payload := [("svc", .vString "api")] }

/-- Claim C5 is a code bug: createEntry aliases the entry's labels map
to the logger's own (`e.Labels = l.labels`), and the deferred
`e.Clear()` in dispatch runs `clear(e.Labels)` on that shared map, so
after any log call the logger's bound labels map has been emptied —
the printed entry still carried the labels, but the logger
configuration is mutated, contradicting the claim; the bound
contextual-fields map, which is copied rather than aliased, is
unchanged. -/
theorem claim_C5_labels_cleared_bug :
    c5Logger.labels = [("user", "test")] ∧
    (dispatch c5Logger none "T" .info "hello" []).printed.labels = [("user", "test")] ∧
    (dispatch c5Logger none "T" .info "hello" []).loggerAfter.labels = [] ∧
    (dispatch c5Logger none "T" .info "hello" []).loggerAfter.payload =
      [("svc", .vString "api")] := by
  refine ⟨rfl, ?_, rfl, rfl⟩
  have := createEntry_labels c5Logger none "T" .info "hello" []
  simpa [dispatch] using this

/-- Whether every key position of a key/value argument list holds a
string, the condition under which `With` does not panic. -/
def allStringKeys : List GoValue → Bool
  | [] => true
  | [_] => true
  | k :: _ :: rest =>
    (match k with
     | .vString _ => true
     | _ => false) && allStringKeys rest

theorem withPairs_isOk (kvs : List GoValue) :
    ∀ m : SMap GoValue, exceptIsOk (withPairs m kvs) = allStringKeys kvs := by
  match kvs with
  | [] => intro m; rfl
  | [x] => intro m; rfl
  | k :: v :: rest =>
    intro m
    cases k with
    | vString s =>
      have lh : withPairs m (GoValue.vString s :: v :: rest) =
          withPairs (setKey m s v) rest := rfl
      have rh : allStringKeys (GoValue.vString s :: v :: rest) =
          (true && allStringKeys rest) := rfl
      rw [lh, rh, withPairs_isOk rest (setKey m s v), Bool.true_and]
    | vBool b => rfl
    | vInt n => rfl
    | vError m' => rfl
    | vHTTPRequest r => rfl
    | vSourceLocation sl => rfl
    | vStringer s => rfl
    | vOther r => rfl

/-- Claim C9: an odd-length call-site argument list never raises — the
diagnostic `logging_error` entry is recorded and the dangling string
key gets the placeholder value (each unless a later pair overwrites
that same key); a non-string key among merged pairs silently skips the
pair; while `With` panics on an odd-length list, and returns normally
exactly when the list is even with all-string keys. -/
theorem claim_C9_malformed_kv_handling :
    (∀ (e : LogEntry) (kvs : List GoValue),
       kvs.length % 2 = 1 →
       lastPW "logging_error" (pairWrites kvs.dropLast) = none →
       lookupKey "logging_error" (applyKVs e kvs).payload =
         some (.vString "odd number of arguments received")) ∧
    (∀ (e : LogEntry) (kvs : List GoValue) (k : String),
       kvs.length % 2 = 1 →
       kvs.getLast? = some (.vString k) →
       k ≠ "logging_error" →
       lastPW k (pairWrites kvs.dropLast) = none →
       lookupKey k (applyKVs e kvs).payload = some (.vString "KEY_WITHOUT_VALUE")) ∧
    (∀ (e : LogEntry) (k v : GoValue) (rest : List GoValue),
       (∀ s, k ≠ .vString s) →
       applyPairs e (k :: v :: rest) = applyPairs e rest) ∧
    (∀ (l : Logger) (kvs : List GoValue),
       kvs.length % 2 = 1 →
       l.With kvs = .error "log.With: odd number of arguments received") ∧
    (∀ (l : Logger) (kvs : List GoValue),
       exceptIsOk (l.With kvs) = true ↔
         (kvs.length % 2 = 0 ∧ allStringKeys kvs = true)) := by
  refine ⟨?_, ?_, ?_, ?_, ?_⟩
  · intro e kvs hodd hnone
    rw [applyKVs_eq_writes, applyWrites_payload, kvWrites, if_pos hodd, lastPW_append]
    have hin : lastPW "logging_error"
        (EntryWrite.pw "logging_error" (.vString "odd number of arguments received") ::
          pairWrites kvs.dropLast) =
        some (.vString "odd number of arguments received") := by
      have lh : lastPW "logging_error"
          (EntryWrite.pw "logging_error" (.vString "odd number of arguments received") ::
            pairWrites kvs.dropLast) =
          (match lastPW "logging_error" (pairWrites kvs.dropLast) with
           | some v => some v
           | none =>
             if "logging_error" = "logging_error" then
               some (GoValue.vString "odd number of arguments received")
             else none) := rfl
      rw [lh, hnone]
      simp
    rw [hin]
  · intro e kvs k hodd hlast hne hnone
    rw [applyKVs_eq_writes, applyWrites_payload, kvWrites, if_pos hodd, hlast,
      lastPW_append]
    have h1 : lastPW k
        (EntryWrite.pw "logging_error" (.vString "odd number of arguments received") ::
          pairWrites kvs.dropLast) = none := by
      have lh : lastPW k
          (EntryWrite.pw "logging_error" (.vString "odd number of arguments received") ::
            pairWrites kvs.dropLast) =
          (match lastPW k (pairWrites kvs.dropLast) with
           | some v => some v
           | none =>
             if "logging_error" = k then
               some (GoValue.vString "odd number of arguments received")
             else none) := rfl
      rw [lh, hnone]
      have hne2 : ¬"logging_error" = k := fun hc => hne hc.symm
      simp [hne2]
    rw [h1]
    have h2 : lastPW k [EntryWrite.pw k (GoValue.vString "KEY_WITHOUT_VALUE")] =
        some (GoValue.vString "KEY_WITHOUT_VALUE") := by
      have lh : lastPW k [EntryWrite.pw k (GoValue.vString "KEY_WITHOUT_VALUE")] =
          (match (none : Option GoValue) with
           | some v => some v
           | none =>
             if k = k then some (GoValue.vString "KEY_WITHOUT_VALUE") else none) := rfl
      rw [lh]
      simp
    rw [h2]
  · intro e k v rest hk
    have h1 : applyOne e k v = e := by
      cases k with
      | vString s => exact absurd rfl (hk s)
      | vBool b => rfl
      | vInt n => rfl
      | vError m => rfl
      | vHTTPRequest r => rfl
      | vSourceLocation sl => rfl
      | vStringer s => rfl
      | vOther r => rfl
    rw [applyPairs, h1]
  · intro l kvs hodd
    rw [Logger.With, if_pos hodd]
  · intro l kvs
    by_cases hodd : kvs.length % 2 = 1
    · rw [Logger.With, if_pos hodd]
      constructor
      · intro h
        exact absurd h (by simp [exceptIsOk])
      · intro h
        omega
    · rw [Logger.With, if_neg hodd]
      have hmap : exceptIsOk
          ((withPairs l.payload kvs).map (fun m => { l with payload := m })) =
          exceptIsOk (withPairs l.payload kvs) := by
        cases withPairs l.payload kvs <;> rfl
      rw [hmap, withPairs_isOk]
      constructor
      · intro h
        exact ⟨by omega, h⟩
      · intro h
        exact h.2

/-- Concrete instance of the C9 theorem: the odd call
`(["a", 1, "b"])` records the diagnostic and the placeholder; a
non-string key pair is skipped; `With` panics on an odd list. -/
theorem claim_C9_witness :
    lookupKey "logging_error"
        (applyKVs c2Entry [.vString "a", .vInt 1, .vString "b"]).payload =
      some (.vString "odd number of arguments received") ∧
    lookupKey "b" (applyKVs c2Entry [.vString "a", .vInt 1, .vString "b"]).payload =
      some (.vString "KEY_WITHOUT_VALUE") ∧
    applyPairs c2Entry [.vInt 5, .vString "x"] = applyPairs c2Entry [] ∧
    newLogger.With [.vString "a"] = .error "log.With: odd number of arguments received" :=
  ⟨claim_C9_malformed_kv_handling.1 c2Entry [.vString "a", .vInt 1, .vString "b"]
      (by decide) (by decide),
   claim_C9_malformed_kv_handling.2.1 c2Entry [.vString "a", .vInt 1, .vString "b"] "b"
      (by decide) (by decide) (by decide) (by decide),
   claim_C9_malformed_kv_handling.2.2.1 c2Entry (.vInt 5) (.vString "x") []
      (fun s h => by cases h),
   claim_C9_malformed_kv_handling.2.2.2.1 newLogger [.vString "a"] (by decide)⟩

theorem ctxTraceHeader_none (l : Logger) (ctx : Option Context)
    (h : l.projectID = "" ∨ l.traceContextKey = none) :
    ctxTraceHeader l ctx = none := by
  rcases ctx with _ | c
  · rcases hk : l.traceContextKey with _ | key <;> simp [ctxTraceHeader, hk]
  · rcases hk : l.traceContextKey with _ | key
    · simp [ctxTraceHeader, hk]
    · rcases h with h | h
      · simp [ctxTraceHeader, hk, h]
      · rw [hk] at h
        cases h

/-- Claim C1 as amended: each storage slot of the built entry follows
last-writer-wins with tier order call-site over bound-fields — the
generic payload map under every key, and the dedicated
httpRequest/sourceLocation fields; the trace and span fields take the
logger's own binding, with the context-extracted value used only when
the logger's binding is empty; and no extraction happens unless the
logger has a non-empty project id and a non-nil context key.  (When
different tiers write the same reserved key with different dynamic
shapes, the promoted field and the generic payload entry are distinct
slots that are both stored, so the renderer's preference for the field
can surface the lower tier's value — see the counterexample.) -/
theorem claim_C1_merge_precedence_amended :
    (∀ (l : Logger) (ctx : Option Context) (now : String) (level : LogLevel)
        (msg : String) (kvs : List GoValue) (k : String),
       lookupKey k (createEntry l ctx now level msg kvs).payload =
         (match lastPW k (kvWrites kvs) with
          | some v => some v
          | none => lastPW k (kvWrites (flattenKVs l.payload)))) ∧
    (∀ (l : Logger) (ctx : Option Context) (now : String) (level : LogLevel)
        (msg : String) (kvs : List GoValue),
       (createEntry l ctx now level msg kvs).httpRequest =
         (match lastHW (kvWrites kvs) with
          | some r => some r
          | none => lastHW (kvWrites (flattenKVs l.payload))) ∧
       (createEntry l ctx now level msg kvs).sourceLocation =
         (match lastSW (kvWrites kvs) with
          | some sl => some sl
          | none => lastSW (kvWrites (flattenKVs l.payload)))) ∧
    (∀ (l : Logger) (ctx : Option Context) (now : String) (level : LogLevel)
        (msg : String) (kvs : List GoValue),
       (createEntry l ctx now level msg kvs).trace =
         (match ctxTraceHeader l ctx with
          | some h =>
            if l.trace = "" then
              "projects/" ++ l.projectID ++ "/traces/" ++ (splitGo '/' h).headD ""
            else l.trace
          | none => l.trace) ∧
       (createEntry l ctx now level msg kvs).spanID =
         (match ctxTraceHeader l ctx with
          | some h =>
            if (splitGo '/' h).length > 1 ∧ l.spanId = "" then
              (splitGo ';' ((splitGo '/' h).getD 1 "")).headD ""
            else l.spanId
          | none => l.spanId)) ∧
    (∀ (l : Logger) (ctx : Option Context) (now : String) (level : LogLevel)
        (msg : String) (kvs : List GoValue),
       l.projectID = "" ∨ l.traceContextKey = none →
       (createEntry l ctx now level msg kvs).trace = l.trace ∧
       (createEntry l ctx now level msg kvs).spanID = l.spanId) := by
  refine ⟨createEntry_payload_lookup, ?_, ?_, ?_⟩
  · intro l ctx now level msg kvs
    exact ⟨createEntry_httpRequest l ctx now level msg kvs,
      createEntry_sourceLocation l ctx now level msg kvs⟩
  · intro l ctx now level msg kvs
    exact ⟨createEntry_trace l ctx now level msg kvs,
      createEntry_spanID l ctx now level msg kvs⟩
  · intro l ctx now level msg kvs h
    have hn := ctxTraceHeader_none l ctx h
    constructor
    · rw [createEntry_trace, hn]
    · rw [createEntry_spanID, hn]

/-- Concrete instances of the C1 amended theorem: a call-site pair
overrides a bound pair under the same key; a bound trace suppresses the
context extraction while an empty one admits it; extraction is inert
without a project id. -/
theorem claim_C1_witness :
    lookupKey "status"
        (createEntry { newLogger with payload := [("status", .vString "pending")] }
          none "T" .info "m" [.vString "status", .vString "success"]).payload =
      some (.vString "success") ∧
    (createEntry
        { newLogger with projectID := "p", traceContextKey := some "k" }
        (some [("k", .vString "abc/def;o=1")]) "T" .info "m" []).trace =
      "projects/p/traces/abc" ∧
    (createEntry
        { newLogger with projectID := "p", traceContextKey := some "k", trace := "mine" }
        (some [("k", .vString "abc/def;o=1")]) "T" .info "m" []).trace = "mine" ∧
    (createEntry
        { newLogger with traceContextKey := some "k" }
        (some [("k", .vString "abc/def;o=1")]) "T" .info "m" []).trace = "" := by
  refine ⟨?_, ?_, ?_, ?_⟩
  · rw [claim_C1_merge_precedence_amended.1]
    decide
  · rw [(claim_C1_merge_precedence_amended.2.2.1
      { newLogger with projectID := "p", traceContextKey := some "k" }
      (some [("k", .vString "abc/def;o=1")]) "T" .info "m" []).1]
    decide
  · rw [(claim_C1_merge_precedence_amended.2.2.1
      { newLogger with projectID := "p", traceContextKey := some "k", trace := "mine" }
      (some [("k", .vString "abc/def;o=1")]) "T" .info "m" []).1]
    decide
  · exact (claim_C1_merge_precedence_amended.2.2.2
      { newLogger with traceContextKey := some "k" }
      (some [("k", .vString "abc/def;o=1")]) "T" .info "m" []
      (Or.inl rfl)).1

/-- The mixed-shape reserved-key scenario refuting C1 as stated: the
bound tier promotes a well-formed request to the dedicated field while
the higher-precedence call-site tier writes a plain string under the
same key `httpRequest`. -/
def c1Request : HTTPRequest :=
  { requestMethod := "GET", requestURL := "http://u", status := 200,
    userAgent := "", remoteIP := "", latency := "" }

def c1Logger : Logger :=
  { newLogger with payload := [("httpRequest", .vHTTPRequest c1Request)] }

def c1Built : LogEntry :=
  createEntry c1Logger none "T" .info "m" [.vString "httpRequest", .vString "nope"]

/-- Claim C1 counterexample: the key `httpRequest` is set at two tiers;
the claim says the call-site value wins in the built entry and the
rendering, but the built entry stores both — the bound tier's promoted
field and the call-site's payload string — and the text rendering
emits the bound tier's HTTP sub-fields while suppressing the call-site
value. -/
theorem claim_C1_counterexample :
    c1Built.httpRequest = some c1Request ∧
    lookupKey "httpRequest" c1Built.payload = some (.vString "nope") ∧
    textKeys c1Built = ["http.method", "http.status", "http.url"] ∧
    ¬"httpRequest" ∈ textKeys c1Built := by decide

theorem payloadSegs_keys (r : GoValue → String) (e : LogEntry) :
    (payloadSegs r e).map Prod.fst =
      (sortStrings (keysOf e.payload)).filter (fun k => !suppressedPayloadKey e k) := by
  rw [payloadSegs]
  induction sortStrings (keysOf e.payload) with
  | nil => rfl
  | cons k ks ih =>
    rw [List.filterMap_cons, List.filter_cons]
    by_cases h : suppressedPayloadKey e k = true
    · simp [h, ih]
    · simp only [Bool.not_eq_true] at h
      simp [h, ih]

theorem sortStrings_sorted (l : List String) :
    List.Sorted (fun a b : String => a ≤ b) (sortStrings l) :=
  List.sorted_insertionSort _ l

theorem mem_sortStrings (l : List String) (k : String) :
    k ∈ sortStrings l ↔ k ∈ l :=
  (List.perm_insertionSort _ l).mem_iff

theorem mem_map_fst_ite {c : Prop} [Decidable c] (p : String × String) (k : String) :
    k ∈ (if c then [p] else []).map Prod.fst ↔ (c ∧ k = p.1) := by
  split <;> simp_all

theorem specialSegs_no_source (e : LogEntry)
    (h : ¬lookupKey "sourceLocation" e.payload = none) :
    "source" ∉ (specialSegs e).map Prod.fst := by
  rcases hsl : e.sourceLocation with _ | sl <;>
    rcases hhr : e.httpRequest with _ | r <;>
      simp [specialSegs, hsl, hhr, h, mem_map_fst_ite]

/-- The entry exhibiting the duplicate-key rendering: an auto-captured
source location plus a payload key `source`; and its variant where the
payload instead holds the reserved key `sourceLocation`. -/
def c7Entry : LogEntry :=
  { message := "m", severity := .info, trace := "", spanID := "", traceSampled := none,
    httpRequest := none, sourceLocation := some ⟨"f.go", 3, "fn"⟩, time := "T",
    labels := [], correlationID := "", payload := [("source", .vString "x")] }

def c7Entry2 : LogEntry := { c7Entry with payload := [("sourceLocation", .vString "x")] }

/-- Claim C7 counterexample: the key `source` is rendered twice for an
entry with a source location and a payload key `source` (no
suppression, duplicate key in the output); and for a payload key
`sourceLocation` the special field is the one suppressed — the payload
tier wins, not the special-field tier. -/
theorem claim_C7_counterexample :
    (textKeys c7Entry).count "source" = 2 ∧
    textKeys c7Entry2 = ["sourceLocation"] ∧
    textFormat c7Entry = "T [INFO] m \x7b source=\"f.go:3\", source=x \x7d" := by
  decide

/-- Claim C7 as amended: the text and console formats render the same
key sequence — special fields in the fixed order source location,
trace, span, correlation id, HTTP sub-fields, then `label.`-prefixed
labels in sorted key order, then payload keys in sorted order; a
payload key is rendered exactly when it is not one of the four reserved
names trace/spanId/correlationId/httpRequest whose special field was
rendered; the source-location special field is itself suppressed
whenever the payload holds a `sourceLocation` key (payload wins), and a
payload key `source` is never suppressed, so it can duplicate the
rendered source key. -/
theorem claim_C7_render_order_amended :
    (∀ e : LogEntry, textKeys e = consoleKeys e) ∧
    (∀ e : LogEntry,
       textKeys e = (specialSegs e).map Prod.fst ++ ((labelSegs e).map Prod.fst ++
         (payloadSegs renderValueText e).map Prod.fst)) ∧
    (∀ (e : LogEntry) (r : GoValue → String),
       List.Sorted (fun a b : String => a ≤ b) ((payloadSegs r e).map Prod.fst)) ∧
    (∀ (e : LogEntry) (r : GoValue → String) (k : String),
       k ∈ (payloadSegs r e).map Prod.fst ↔
         (k ∈ keysOf e.payload ∧ suppressedPayloadKey e k = false)) ∧
    (∀ e : LogEntry, ¬lookupKey "sourceLocation" e.payload = none →
       "source" ∉ (specialSegs e).map Prod.fst) := by
  refine ⟨?_, ?_, ?_, ?_, specialSegs_no_source⟩
  · intro e
    rw [textKeys, consoleKeys, textSegs, consoleSegs]
    simp only [List.map_append]
    rw [payloadSegs_keys, payloadSegs_keys]
  · intro e
    rw [textKeys, textSegs]
    simp [List.map_append]
  · intro e r
    rw [payloadSegs_keys]
    exact (sortStrings_sorted (keysOf e.payload)).filter _
  · intro e r k
    rw [payloadSegs_keys, List.mem_filter, mem_sortStrings]
    simp

/-- Concrete instance of the C7 amended theorem: for the entry whose
payload holds the reserved key `sourceLocation`, the special source
field is suppressed. -/
theorem claim_C7_witness :
    "source" ∉ (specialSegs c7Entry2).map Prod.fst :=
  claim_C7_render_order_amended.2.2.2.2 c7Entry2 (by decide)

end Harelog
